import Mathlib

/-
  Verification of the job orchestration subsystem of the
  confirmation_parsers repository.

  The embedding mirrors, definition by definition:
    - src/backend/src/utils/job_manager.py      (JobStatus, JobManager)
    - src/backend/src/utils/worker_pool.py      (GlobalWorkerPool._worker_loop)
    - src/backend/src/parsers/confirmation_parser.py
                                                (parse_confirmation_file,
                                                 Broker, the output naming)

  Concurrency is factored out: every JobManager method runs under one
  global lock, so each method call is a single atomic step on the store;
  we model the store as a value and the methods as pure functions on it.
-/

namespace ConfParse

/-- Job record, mirroring class JobStatus in job_manager.py:
total_pages, processed_pages, status (one of the five strings),
total_time (float, modelled as Rat), output_filename (optional). -/
structure JobStatus where
  total_pages : Nat
  processed_pages : Nat
  status : String
  total_time : Rat
  output_filename : Option String
deriving DecidableEq

/-- The JobManager store: the dict from job id to JobStatus.  A Python
dict has at most one entry per key; association-list order is
irrelevant to lookup because ids are fresh uuid4 values. -/
abbrev Store := List (String × JobStatus)

/-- Dict lookup: self.jobs[job_id] when present. -/
def findJob : Store → String → Option JobStatus
  | [], _ => none
  | p :: rest, id => if p.1 == id then some p.2 else findJob rest id

/-- The common shape of every JobManager mutator: under the lock,
if job_id in self.jobs then mutate that record in place, else do
nothing.  Keys are untouched. -/
def updateJob : Store → String → (JobStatus → JobStatus) → Store
  | [], _, _ => []
  | p :: rest, id, f =>
      (if p.1 == id then (p.1, f p.2) else p) :: updateJob rest id f

/-- JobManager.create: insert a fresh record with status queuing,
processed_pages 0, total_time 0, no output_filename.  The id is a
fresh uuid4 hex, passed in here as a parameter; position of insertion
in the association list is immaterial for fresh ids. -/
def createJob (s : Store) (job_id : String) (total_pages : Nat) : Store :=
  (job_id, { total_pages := total_pages, processed_pages := 0,
             status := "queuing", total_time := 0,
             output_filename := none }) :: s

/-- JobManager.start_job: sets status to processing unconditionally
for any known job (the code has no queuing-only guard). -/
def startJob (s : Store) (job_id : String) : Store :=
  updateJob s job_id (fun j => { j with status := "processing" })

/-- JobManager.increment_progress: adds 1 to processed_pages, but only
when status is processing; no upper clamp against total_pages. -/
def incrementProgress (s : Store) (job_id : String) : Store :=
  updateJob s job_id (fun j =>
    if j.status == "processing"
    then { j with processed_pages := j.processed_pages + 1 }
    else j)

/-- JobManager.fail_job: sets status to failed unconditionally for any
known job. -/
def failJob (s : Store) (job_id : String) : Store :=
  updateJob s job_id (fun j => { j with status := "failed" })

/-- JobManager.complete_job: sets status to completed and total_time to
the given value; it does NOT touch processed_pages. -/
def completeJob (s : Store) (job_id : String) (total_time : Rat) : Store :=
  updateJob s job_id (fun j =>
    { j with status := "completed", total_time := total_time })

/-- JobManager.set_output_filename: records the filename. -/
def setOutputFilename (s : Store) (job_id : String) (filename : String) : Store :=
  updateJob s job_id (fun j => { j with output_filename := some filename })

/-- JobManager.set_downloaded: sets status to downloaded unconditionally
for any known job (the code has no completed-only guard). -/
def setDownloaded (s : Store) (job_id : String) : Store :=
  updateJob s job_id (fun j => { j with status := "downloaded" })

/-- JobManager.get_status: returns a shallow copy of the dict; in the
pure embedding the copy is the store value itself. -/
def getStatus (s : Store) : Store := s

/- ------------------------------------------------------------------ -/
/- The parser and the worker pipeline.                                 -/
/- ------------------------------------------------------------------ -/

/-- Broker enum from confirmation_parser.py. -/
inductive Broker where
  | robinhood
  | fidelity
  | unknown
deriving DecidableEq

/-- A JSON value sitting in a transaction record, as far as the output
naming cares: either a Python str (whose replace method works) or any
non-string value (number, list, dict, null), on which calling replace
raises AttributeError. -/
inductive Value where
  | str (s : String)
  | nonStr
deriving DecidableEq

/-- One transaction record: a JSON object, i.e. a string-keyed map. -/
abbrev Record := List (String × Value)

/-- Python dict.get(key, default) on a record. -/
def recordGet (r : Record) (key : String) (dflt : Value) : Value :=
  match r with
  | [] => dflt
  | p :: rest => if p.1 == key then p.2 else recordGet rest key dflt

/-- Python str.replace(old, new) for the one-character patterns the
worker uses; with a one-character pattern, replace substitutes every
occurrence of that character. -/
def replaceChar (s : String) (old new : Char) : String :=
  ⟨s.data.map (fun c => if c = old then new else c)⟩

/-- The outcome of one page of parse_confirmation_file, abstracting the
external collaborators (PDF text extraction, model call, JSON decode):
  - ok recs     : the page parsed, yielding its transaction records;
  - decodeFail  : a failure inside the per-page try block (model call or
                  decode), handled at lines 133-136 of
                  confirmation_parser.py by fail_job plus return;
  - extractFail : a failure raised by the text-extraction generator at
                  the for statement itself, outside the try, which
                  propagates out of parse_confirmation_file. -/
inductive PageOutcome where
  | ok (recs : List Record)
  | decodeFail
  | extractFail
deriving DecidableEq

/-- How parse_confirmation_file hands control back to the worker:
either a normal return carrying the transaction list, or an exception
propagating to the caller. -/
inductive ParseOutcome where
  | returned (transactions : List Record)
  | raised
deriving DecidableEq

/-- The page loop of parse_confirmation_file (confirmation_parser.py
lines 115-148) run for job job_id, starting from store s with the
transactions accumulated so far in acc.  Returns the list of store
states after each store mutation (in order), the final store, and how
the call ends.

  - On a page with outcome ok recs: the records are appended to the
    accumulator and increment_progress(job_id) runs.
  - On decodeFail: fail_job(job_id) runs and the function RETURNS the
    accumulated transactions of the earlier pages (line 136).
  - On extractFail: the exception propagates immediately; no store
    mutation happens inside parse_confirmation_file.
  - After the last page the code calls complete_job(job_id) with NO
    total_time argument (line 139), although
    JobManager.complete_job(self, job_id, total_time) requires one; the
    call raises TypeError before any store mutation, so the loop-exit
    path raises and complete_job never runs. -/
def parseLoop (s : Store) (job_id : String) (acc : List Record) :
    List PageOutcome → List Store × Store × ParseOutcome
  | [] => ([], s, ParseOutcome.raised)
  | PageOutcome.ok recs :: rest =>
      let s1 := incrementProgress s job_id
      let r := parseLoop s1 job_id (acc ++ recs) rest
      (s1 :: r.1, r.2)
  | PageOutcome.decodeFail :: _ =>
      let s1 := failJob s job_id
      ([s1], s1, ParseOutcome.returned acc)
  | PageOutcome.extractFail :: _ => ([], s, ParseOutcome.raised)

/-- The output-file naming block of GlobalWorkerPool, worker_pool.py
lines 151-160 (ParserWorkerPool lines 66-77 are identical): start from
the fallback job_id.csv; for robinhood with a nonempty transaction
list take the first record, get trade_date with default "unknown",
replace / by _ and build rh_<date>.csv; for fidelity likewise with
date, - and fidelity_<date>.csv; any exception inside (for a
non-string field value, replace raises AttributeError) is swallowed by
the except and the fallback name stands. -/
def deriveOutputFile (broker : Broker) (job_id : String)
    (transactions : List Record) : String :=
  match broker, transactions with
  | Broker.robinhood, r :: _ =>
      match recordGet r "trade_date" (Value.str "unknown") with
      | Value.str d => "rh_" ++ replaceChar d '/' '_' ++ ".csv"
      | Value.nonStr => job_id ++ ".csv"
  | Broker.fidelity, r :: _ =>
      match recordGet r "date" (Value.str "unknown") with
      | Value.str d => "fidelity_" ++ replaceChar d '-' '_' ++ ".csv"
      | Value.nonStr => job_id ++ ".csv"
  | _, _ => job_id ++ ".csv"

/-- The enqueued unit, mirroring GlobalParserJob in worker_pool.py;
file_path and start_page select which pages the strategy sees and are
folded into the pages argument of workerStep. -/
structure WorkItem where
  broker : Broker
  job_id : String

/-- What one worker-loop iteration leaves behind: the store states
after each store mutation in order, the final store, and the CSV
artifact handed to to_csv (filename and rows), if any. -/
structure WorkerResult where
  trace : List Store
  final : Store
  artifact : Option (String × List Record)
deriving DecidableEq

/-- One iteration of GlobalWorkerPool._worker_loop (worker_pool.py
lines 130-171) on a dequeued item, with dispatch the domain of the
broker-to-parser dict and pages the per-page outcomes of the parsing
strategy on the file.

Order of operations as in the code: start_job FIRST (line 134), then
the dispatch lookup (line 136); an unknown broker gets fail_job and
the item is abandoned.  Then parse_confirmation_file; if it raises
(extractFail page, or the complete_job TypeError at loop exit), the
except at line 165 runs fail_job.  If it returns transactions, the
worker derives the output name, records it via set_output_filename and
calls to_csv on the transactions, whatever the job status is. -/
def workerStep (dispatch : Broker → Bool) (s : Store) (item : WorkItem)
    (pages : List PageOutcome) : WorkerResult :=
  let s1 := startJob s item.job_id
  if dispatch item.broker then
    match parseLoop s1 item.job_id [] pages with
    | (tr, s2, ParseOutcome.raised) =>
        let s3 := failJob s2 item.job_id
        { trace := s1 :: (tr ++ [s3]), final := s3, artifact := none }
    | (tr, s2, ParseOutcome.returned transactions) =>
        let f := deriveOutputFile item.broker item.job_id transactions
        let s3 := setOutputFilename s2 item.job_id f
        { trace := s1 :: (tr ++ [s3]), final := s3,
          artifact := some (f, transactions) }
  else
    let s2 := failJob s1 item.job_id
    { trace := [s1, s2], final := s2, artifact := none }

/-- The five status strings the data model allows. -/
def validStatuses : List String :=
  ["queuing", "processing", "completed", "failed", "downloaded"]

/-- Every record in the store carries one of the five defined
statuses. -/
def StatusValid (s : Store) : Prop :=
  ∀ p ∈ s, p.2.status ∈ validStatuses

instance (s : Store) : Decidable (StatusValid s) :=
  List.decidableBAll _ s

/-- The processed_pages field of a job as observed in a snapshot
(0 when the job is unknown). -/
def processedOf (s : Store) (id : String) : Nat :=
  ((findJob s id).map JobStatus.processed_pages).getD 0

/-- The total_pages field of a job as observed in a snapshot
(0 when the job is unknown). -/
def totalOf (s : Store) (id : String) : Nat :=
  ((findJob s id).map JobStatus.total_pages).getD 0

/- ------------------------------------------------------------------ -/
/- Store lemmas.                                                       -/
/- ------------------------------------------------------------------ -/

theorem findJob_updateJob_self (s : Store) (id : String)
    (f : JobStatus → JobStatus) :
    findJob (updateJob s id f) id = (findJob s id).map f := by
  induction s with
  | nil => rfl
  | cons p rest ih =>
      cases hb : (p.1 == id) with
      | true => simp [updateJob, findJob, hb]
      | false => simp [updateJob, findJob, hb, ih]

theorem findJob_updateJob_other (s : Store) (id k : String)
    (f : JobStatus → JobStatus) (h : k ≠ id) :
    findJob (updateJob s id f) k = findJob s k := by
  induction s with
  | nil => rfl
  | cons p rest ih =>
      by_cases h1 : p.1 = id
      · simp [updateJob, findJob, h1, Ne.symm h, ih]
      · simp [updateJob, findJob, h1, ih]

theorem updateJob_of_findJob_none (s : Store) (id : String)
    (f : JobStatus → JobStatus) (h : findJob s id = none) :
    updateJob s id f = s := by
  induction s with
  | nil => rfl
  | cons p rest ih =>
      cases hb : (p.1 == id) with
      | true => simp [findJob, hb] at h
      | false =>
          simp [findJob, hb] at h
          simp [updateJob, hb, ih h]

theorem mem_updateJob (s : Store) (id : String) (f : JobStatus → JobStatus)
    (p : String × JobStatus) (hp : p ∈ updateJob s id f) :
    p ∈ s ∨ ∃ q, q ∈ s ∧ p = (q.1, f q.2) := by
  induction s with
  | nil => simp [updateJob] at hp
  | cons a rest ih =>
      cases hb : (a.1 == id) with
      | true =>
          simp [updateJob, hb] at hp
          rcases hp with h | h
          · exact Or.inr ⟨a, List.mem_cons_self a rest, h⟩
          · rcases ih h with h2 | ⟨q, hq, he⟩
            · exact Or.inl (List.mem_cons_of_mem a h2)
            · exact Or.inr ⟨q, List.mem_cons_of_mem a hq, he⟩
      | false =>
          simp [updateJob, hb] at hp
          rcases hp with h | h
          · exact Or.inl (by simp [h])
          · rcases ih h with h2 | ⟨q, hq, he⟩
            · exact Or.inl (List.mem_cons_of_mem a h2)
            · exact Or.inr ⟨q, List.mem_cons_of_mem a hq, he⟩

theorem statusValid_updateJob (s : Store) (id : String)
    (f : JobStatus → JobStatus) (hs : StatusValid s)
    (hf : ∀ j, j.status ∈ validStatuses → (f j).status ∈ validStatuses) :
    StatusValid (updateJob s id f) := by
  intro p hp
  rcases mem_updateJob s id f p hp with h | ⟨q, hq, he⟩
  · exact hs p h
  · rw [he]
    exact hf q.2 (hs q hq)

theorem processedOf_updateJob (s : Store) (id k : String)
    (f : JobStatus → JobStatus)
    (hf : ∀ j, (f j).processed_pages = j.processed_pages) :
    processedOf (updateJob s id f) k = processedOf s k := by
  by_cases hk : k = id
  · subst hk
    unfold processedOf
    rw [findJob_updateJob_self]
    cases findJob s k <;> simp [hf]
  · unfold processedOf
    rw [findJob_updateJob_other _ _ _ _ hk]

theorem totalOf_updateJob (s : Store) (id k : String)
    (f : JobStatus → JobStatus)
    (hf : ∀ j, (f j).total_pages = j.total_pages) :
    totalOf (updateJob s id f) k = totalOf s k := by
  by_cases hk : k = id
  · subst hk
    unfold totalOf
    rw [findJob_updateJob_self]
    cases findJob s k <;> simp [hf]
  · unfold totalOf
    rw [findJob_updateJob_other _ _ _ _ hk]

theorem processedOf_incrementProgress_le (s : Store) (id k : String) :
    processedOf (incrementProgress s id) k ≤ processedOf s k + 1 := by
  by_cases hk : k = id
  · subst hk
    unfold processedOf incrementProgress
    rw [findJob_updateJob_self]
    cases findJob s k with
    | none => simp
    | some j =>
        by_cases hj : j.status = "processing" <;> simp [hj]
  · unfold incrementProgress processedOf
    rw [findJob_updateJob_other _ _ _ _ hk]
    exact Nat.le_succ _

theorem statusValid_startJob (s : Store) (id : String) (hs : StatusValid s) :
    StatusValid (startJob s id) :=
  statusValid_updateJob _ _ _ hs (fun _ _ => by simp [validStatuses])

theorem statusValid_failJob (s : Store) (id : String) (hs : StatusValid s) :
    StatusValid (failJob s id) :=
  statusValid_updateJob _ _ _ hs (fun _ _ => by simp [validStatuses])

theorem statusValid_setOutputFilename (s : Store) (id fn : String)
    (hs : StatusValid s) : StatusValid (setOutputFilename s id fn) :=
  statusValid_updateJob _ _ _ hs (fun _ hj => by simpa using hj)

theorem statusValid_incrementProgress (s : Store) (id : String)
    (hs : StatusValid s) : StatusValid (incrementProgress s id) := by
  refine statusValid_updateJob _ _ _ hs (fun j hj => ?_)
  by_cases h : j.status = "processing"
  · simp [h, validStatuses]
  · simpa [h] using hj

theorem totalOf_startJob (s : Store) (id k : String) :
    totalOf (startJob s id) k = totalOf s k :=
  totalOf_updateJob _ _ _ _ (fun _ => rfl)

theorem totalOf_failJob (s : Store) (id k : String) :
    totalOf (failJob s id) k = totalOf s k :=
  totalOf_updateJob _ _ _ _ (fun _ => rfl)

theorem totalOf_setOutputFilename (s : Store) (id fn k : String) :
    totalOf (setOutputFilename s id fn) k = totalOf s k :=
  totalOf_updateJob _ _ _ _ (fun _ => rfl)

theorem totalOf_incrementProgress (s : Store) (id k : String) :
    totalOf (incrementProgress s id) k = totalOf s k := by
  refine totalOf_updateJob _ _ _ _ (fun j => ?_)
  by_cases h : j.status = "processing" <;> simp [h]

theorem processedOf_startJob (s : Store) (id k : String) :
    processedOf (startJob s id) k = processedOf s k :=
  processedOf_updateJob _ _ _ _ (fun _ => rfl)

theorem processedOf_failJob (s : Store) (id k : String) :
    processedOf (failJob s id) k = processedOf s k :=
  processedOf_updateJob _ _ _ _ (fun _ => rfl)

theorem processedOf_setOutputFilename (s : Store) (id fn k : String) :
    processedOf (setOutputFilename s id fn) k = processedOf s k :=
  processedOf_updateJob _ _ _ _ (fun _ => rfl)

/-- Every store state reached inside the page loop stays status-valid,
gains at most one processed page per input page, and never changes
total_pages. -/
theorem parseLoop_inv (id : String) (pages : List PageOutcome) :
    ∀ (s : Store) (acc : List Record) (tr : List Store) (sf : Store)
      (out : ParseOutcome),
      parseLoop s id acc pages = (tr, sf, out) →
      ∀ st ∈ sf :: tr,
        (StatusValid s → StatusValid st) ∧
        processedOf st id ≤ processedOf s id + pages.length ∧
        totalOf st id = totalOf s id := by
  induction pages with
  | nil =>
      intro s acc tr sf out h st hst
      simp [parseLoop] at h
      obtain ⟨h1, h2, _⟩ := h
      subst h1
      subst h2
      simp at hst
      subst hst
      exact ⟨fun hv => hv, by simp, rfl⟩
  | cons pg rest ih =>
      intro s acc tr sf out h st hst
      cases pg with
      | ok recs =>
          cases hr : parseLoop (incrementProgress s id) id (acc ++ recs) rest with
          | mk tr2 r2 =>
            cases r2 with
            | mk sf2 out2 =>
              simp [parseLoop, hr] at h
              obtain ⟨h1, h2, _⟩ := h
              subst h1
              subst h2
              have hinc1 := processedOf_incrementProgress_le s id id
              have hinc2 := totalOf_incrementProgress s id id
              simp at hst
              rcases hst with hst | hst | hst
              · subst hst
                have := ih _ _ _ _ _ hr st (List.mem_cons_self _ _)
                refine ⟨fun hv => this.1 (statusValid_incrementProgress s id hv), ?_, ?_⟩
                · calc processedOf st id
                      ≤ processedOf (incrementProgress s id) id + rest.length :=
                        this.2.1
                    _ ≤ (processedOf s id + 1) + rest.length :=
                        Nat.add_le_add_right hinc1 _
                    _ = processedOf s id + (rest.length + 1) := by omega
                · rw [this.2.2, hinc2]
              · subst hst
                refine ⟨fun hv => statusValid_incrementProgress s id hv, ?_, hinc2⟩
                calc processedOf (incrementProgress s id) id
                    ≤ processedOf s id + 1 := hinc1
                  _ ≤ processedOf s id + (rest.length + 1) := by omega
              · have := ih _ _ _ _ _ hr st (List.mem_cons_of_mem _ hst)
                refine ⟨fun hv => this.1 (statusValid_incrementProgress s id hv), ?_, ?_⟩
                · calc processedOf st id
                      ≤ processedOf (incrementProgress s id) id + rest.length :=
                        this.2.1
                    _ ≤ (processedOf s id + 1) + rest.length :=
                        Nat.add_le_add_right hinc1 _
                    _ = processedOf s id + (rest.length + 1) := by omega
                · rw [this.2.2, hinc2]
      | decodeFail =>
          simp [parseLoop] at h
          obtain ⟨h1, h2, _⟩ := h
          subst h1
          subst h2
          simp at hst
          subst hst
          refine ⟨fun hv => statusValid_failJob s id hv, ?_, totalOf_failJob s id id⟩
          rw [processedOf_failJob]
          omega
      | extractFail =>
          simp [parseLoop] at h
          obtain ⟨h1, h2, _⟩ := h
          subst h1
          subst h2
          simp at hst
          subst hst
          exact ⟨fun hv => hv, by omega, rfl⟩

/- ------------------------------------------------------------------ -/
/- Claim theorems.                                                     -/
/- ------------------------------------------------------------------ -/

/-- C3, counterexample: the claim says every transition attempt outside
queuing to processing to completed or failed, and completed to
downloaded, is rejected or ignored.  On a freshly created job (status
queuing), set_downloaded nevertheless moves the status straight to
downloaded: the invalid transition is applied, not rejected. -/
theorem setDownloaded_from_queuing_applied :
    findJob (createJob [] "job-c3" 3) "job-c3" =
      some { total_pages := 3, processed_pages := 0, status := "queuing",
             total_time := 0, output_filename := none } ∧
    findJob (setDownloaded (createJob [] "job-c3" 3) "job-c3") "job-c3" =
      some { total_pages := 3, processed_pages := 0, status := "downloaded",
             total_time := 0, output_filename := none } := by
  constructor <;> rfl

/-- C3, amended: the store itself does not enforce the state machine.
For any known job, start_job, fail_job, complete_job and
set_downloaded overwrite the status with their target value whatever
the current status is, each writing only its designated fields and
leaving the rest of the record intact; only increment_progress is
guarded, by status == processing. -/
theorem transitions_unconditional (s : Store) (id : String)
    (j : JobStatus) (h : findJob s id = some j) :
    findJob (startJob s id) id = some { j with status := "processing" } ∧
    findJob (failJob s id) id = some { j with status := "failed" } ∧
    findJob (setDownloaded s id) id = some { j with status := "downloaded" } ∧
    (∀ t, findJob (completeJob s id t) id =
      some { j with status := "completed", total_time := t }) ∧
    (j.status ≠ "processing" → findJob (incrementProgress s id) id = some j) := by
  refine ⟨?_, ?_, ?_, fun t => ?_, fun hne => ?_⟩ <;>
    simp [startJob, failJob, setDownloaded, completeJob, incrementProgress,
      findJob_updateJob_self, h]
  simp [hne]

/-- C3, witness for the amended theorem at a concrete store. -/
theorem transitions_unconditional_witness :
    findJob [("w3", (⟨5, 2, "completed", 7, none⟩ : JobStatus))] "w3" =
      some ⟨5, 2, "completed", 7, none⟩ ∧
    findJob (startJob [("w3", (⟨5, 2, "completed", 7, none⟩ : JobStatus))] "w3")
      "w3" = some ⟨5, 2, "processing", 7, none⟩ ∧
    findJob (setDownloaded [("w3", (⟨5, 2, "completed", 7, none⟩ : JobStatus))]
      "w3") "w3" = some ⟨5, 2, "downloaded", 7, none⟩ ∧
    findJob (incrementProgress [("w3", (⟨5, 2, "completed", 7, none⟩ : JobStatus))]
      "w3") "w3" = some ⟨5, 2, "completed", 7, none⟩ := by
  have h := transitions_unconditional
    [("w3", (⟨5, 2, "completed", 7, none⟩ : JobStatus))] "w3"
    ⟨5, 2, "completed", 7, none⟩ (by rfl)
  exact ⟨by rfl, h.1, h.2.2.1, h.2.2.2.2 (by decide)⟩

/-- C4, counterexample: the claim says complete(job_id, total_time)
forces processed_pages = total_pages.  Completing a fresh 3-page job
with processed_pages = 0 leaves processed_pages at 0, not 3. -/
theorem completeJob_keeps_processed_pages :
    findJob (completeJob (createJob [] "job-c4" 3) "job-c4" 5) "job-c4" =
      some { total_pages := 3, processed_pages := 0, status := "completed",
             total_time := 5, output_filename := none } ∧
    ((findJob (completeJob (createJob [] "job-c4" 3) "job-c4" 5) "job-c4").map
      JobStatus.processed_pages ≠
     (findJob (completeJob (createJob [] "job-c4" 3) "job-c4" 5) "job-c4").map
      JobStatus.total_pages) := by
  constructor
  · rfl
  · decide

/-- C4, amended: for every known job, complete(job_id, total_time)
transitions the job to status completed and sets total_time to the
given value; it leaves processed_pages (and every other field)
unchanged rather than forcing processed_pages = total_pages. -/
theorem completeJob_effect (s : Store) (id : String) (j : JobStatus)
    (t : Rat) (h : findJob s id = some j) :
    findJob (completeJob s id t) id =
      some { j with status := "completed", total_time := t } := by
  simp [completeJob, findJob_updateJob_self, h]

/-- C4, witness for the amended theorem at a concrete store. -/
theorem completeJob_effect_witness :
    findJob [("w4", (⟨4, 1, "processing", 0, none⟩ : JobStatus))] "w4" =
      some ⟨4, 1, "processing", 0, none⟩ ∧
    findJob (completeJob [("w4", (⟨4, 1, "processing", 0, none⟩ : JobStatus))]
      "w4" 9) "w4" = some ⟨4, 1, "completed", 9, none⟩ :=
  ⟨by rfl,
   completeJob_effect [("w4", ⟨4, 1, "processing", 0, none⟩)] "w4"
     ⟨4, 1, "processing", 0, none⟩ 9 (by rfl)⟩

/-- C7, counterexample: the claim says increment_progress never pushes
processed_pages above total_pages even if called more than total_pages
times while the job is processing.  On a 1-page processing job, two
calls to increment_progress reach processed_pages = 2 > 1: the code
has no clamp against total_pages. -/
theorem incrementProgress_exceeds_total :
    findJob (incrementProgress (incrementProgress
        (startJob (createJob [] "job-c7" 1) "job-c7") "job-c7") "job-c7")
      "job-c7" =
      some { total_pages := 1, processed_pages := 2, status := "processing",
             total_time := 0, output_filename := none } ∧
    1 < 2 := by
  constructor
  · rfl
  · decide

/-- C7, amended: at every observable point of a worker run (every
store state in the trace, as returned by a get_status snapshot) the
status of every job is one of the five defined values, and
processed_pages of the processed job stays at most total_pages
PROVIDED the job starts with processed_pages = 0 and the number of
pages handed to the strategy does not exceed total_pages - the
discipline the pipeline guarantees.  increment_progress itself does
not clamp, so calls beyond total_pages would exceed it. -/
theorem snapshot_invariants (dispatch : Broker → Bool) (s : Store)
    (item : WorkItem) (pages : List PageOutcome)
    (hs : StatusValid s) (hp : processedOf s item.job_id = 0)
    (ht : pages.length ≤ totalOf s item.job_id) :
    ∀ st ∈ (workerStep dispatch s item pages).trace,
      StatusValid (getStatus st) ∧
      processedOf (getStatus st) item.job_id ≤
        totalOf (getStatus st) item.job_id := by
  intro st hst
  have hs1 : StatusValid (startJob s item.job_id) :=
    statusValid_startJob s item.job_id hs
  have hp1 : processedOf (startJob s item.job_id) item.job_id = 0 := by
    rw [processedOf_startJob]
    exact hp
  have ht1 : totalOf (startJob s item.job_id) item.job_id =
      totalOf s item.job_id := totalOf_startJob s item.job_id item.job_id
  by_cases hd : dispatch item.broker
  · cases hpl : parseLoop (startJob s item.job_id) item.job_id [] pages with
    | mk tr r2 =>
      cases r2 with
      | mk s2 out =>
        have hinv := parseLoop_inv item.job_id pages _ _ _ _ _ hpl
        have hs2 := hinv s2 (List.mem_cons_self _ _)
        have hbound : ∀ u, u ∈ s2 :: tr →
            StatusValid u ∧ processedOf u item.job_id ≤ totalOf u item.job_id := by
          intro u hu
          have h3 := hinv u hu
          refine ⟨h3.1 hs1, ?_⟩
          calc processedOf u item.job_id
              ≤ processedOf (startJob s item.job_id) item.job_id + pages.length :=
                h3.2.1
            _ = pages.length := by rw [hp1]; omega
            _ ≤ totalOf s item.job_id := ht
            _ = totalOf u item.job_id := by rw [h3.2.2, ht1]
        cases out with
        | raised =>
            simp [workerStep, hd, hpl] at hst
            rcases hst with hst | hst | hst
            · subst hst
              refine ⟨hs1, ?_⟩
              rw [getStatus, hp1, ht1]
              omega
            · exact hbound st (List.mem_cons_of_mem _ hst)
            · subst hst
              have h2 := hbound s2 (List.mem_cons_self _ _)
              refine ⟨statusValid_failJob _ _ h2.1, ?_⟩
              rw [getStatus, processedOf_failJob, totalOf_failJob]
              exact h2.2
        | returned transactions =>
            simp [workerStep, hd, hpl] at hst
            rcases hst with hst | hst | hst
            · subst hst
              refine ⟨hs1, ?_⟩
              rw [getStatus, hp1, ht1]
              omega
            · exact hbound st (List.mem_cons_of_mem _ hst)
            · subst hst
              have h2 := hbound s2 (List.mem_cons_self _ _)
              refine ⟨statusValid_setOutputFilename _ _ _ h2.1, ?_⟩
              rw [getStatus, processedOf_setOutputFilename,
                totalOf_setOutputFilename]
              exact h2.2
  · simp [workerStep, hd] at hst
    rcases hst with hst | hst
    · subst hst
      refine ⟨hs1, ?_⟩
      rw [getStatus, hp1, ht1]
      omega
    · subst hst
      refine ⟨statusValid_failJob _ _ hs1, ?_⟩
      rw [getStatus, processedOf_failJob, totalOf_failJob, hp1, ht1]
      omega

/-- C7, witness for the amended theorem: a concrete 2-page robinhood
run, specialized to the first snapshot of the trace. -/
theorem snapshot_invariants_witness :
    StatusValid (createJob [] "w7" 2) ∧
    processedOf (createJob [] "w7" 2) "w7" = 0 ∧
    2 ≤ totalOf (createJob [] "w7" 2) "w7" ∧
    (StatusValid (getStatus (startJob (createJob [] "w7" 2) "w7")) ∧
     processedOf (getStatus (startJob (createJob [] "w7" 2) "w7")) "w7" ≤
       totalOf (getStatus (startJob (createJob [] "w7" 2) "w7")) "w7") := by
  refine ⟨by decide, by decide, by decide, ?_⟩
  have h := snapshot_invariants (fun _ => true) (createJob [] "w7" 2)
    { broker := Broker.robinhood, job_id := "w7" }
    [PageOutcome.ok [], PageOutcome.ok []]
    (by decide) (by decide) (by decide)
    (startJob (createJob [] "w7" 2) "w7") (by decide)
  exact h

/-- C8: every store mutator invoked with a job_id not present in the
store is a no-op: it raises nothing (each method body is guarded by
if job_id in self.jobs) and leaves the entire store unchanged. -/
theorem unknown_job_ops_noop (s : Store) (id : String)
    (h : findJob s id = none) :
    startJob s id = s ∧ incrementProgress s id = s ∧ failJob s id = s ∧
    (∀ t, completeJob s id t = s) ∧
    (∀ fn, setOutputFilename s id fn = s) ∧
    setDownloaded s id = s := by
  refine ⟨?_, ?_, ?_, fun t => ?_, fun fn => ?_, ?_⟩ <;>
    exact updateJob_of_findJob_none _ _ _ h

/-- C8, witness: the operations on an absent id leave a concrete
one-job store untouched. -/
theorem unknown_job_ops_noop_witness :
    findJob [("a", (⟨1, 0, "queuing", 0, none⟩ : JobStatus))] "b" = none ∧
    startJob [("a", (⟨1, 0, "queuing", 0, none⟩ : JobStatus))] "b" =
      [("a", ⟨1, 0, "queuing", 0, none⟩)] ∧
    incrementProgress [("a", (⟨1, 0, "queuing", 0, none⟩ : JobStatus))] "b" =
      [("a", ⟨1, 0, "queuing", 0, none⟩)] ∧
    completeJob [("a", (⟨1, 0, "queuing", 0, none⟩ : JobStatus))] "b" 3 =
      [("a", ⟨1, 0, "queuing", 0, none⟩)] ∧
    setDownloaded [("a", (⟨1, 0, "queuing", 0, none⟩ : JobStatus))] "b" =
      [("a", ⟨1, 0, "queuing", 0, none⟩)] := by
  have h := unknown_job_ops_noop
    [("a", (⟨1, 0, "queuing", 0, none⟩ : JobStatus))] "b" (by rfl)
  exact ⟨by rfl, h.1, h.2.1, h.2.2.2.1 3, h.2.2.2.2.2⟩

/-- C9: for every job present in the store, in whatever status,
fail_job modifies only that job record and only its status field
(setting it to failed); all other fields of the record and every other
job record are unchanged. -/
theorem failJob_frame (s : Store) (id : String) (j : JobStatus)
    (h : findJob s id = some j) :
    findJob (failJob s id) id = some { j with status := "failed" } ∧
    ∀ k, k ≠ id → findJob (failJob s id) k = findJob s k := by
  constructor
  · simp [failJob, findJob_updateJob_self, h]
  · intro k hk
    exact findJob_updateJob_other _ _ _ _ hk

/-- C9, witness: failing one job of a concrete two-job store rewrites
only the status of that job. -/
theorem failJob_frame_witness :
    findJob [("x", (⟨2, 1, "processing", 0, some "f.csv"⟩ : JobStatus)),
             ("y", (⟨5, 5, "completed", 3, none⟩ : JobStatus))] "x" =
      some ⟨2, 1, "processing", 0, some "f.csv"⟩ ∧
    findJob (failJob [("x", (⟨2, 1, "processing", 0, some "f.csv"⟩ : JobStatus)),
             ("y", (⟨5, 5, "completed", 3, none⟩ : JobStatus))] "x") "x" =
      some ⟨2, 1, "failed", 0, some "f.csv"⟩ ∧
    findJob (failJob [("x", (⟨2, 1, "processing", 0, some "f.csv"⟩ : JobStatus)),
             ("y", (⟨5, 5, "completed", 3, none⟩ : JobStatus))] "x") "y" =
      findJob [("x", (⟨2, 1, "processing", 0, some "f.csv"⟩ : JobStatus)),
             ("y", (⟨5, 5, "completed", 3, none⟩ : JobStatus))] "y" := by
  have h := failJob_frame
    [("x", (⟨2, 1, "processing", 0, some "f.csv"⟩ : JobStatus)),
     ("y", (⟨5, 5, "completed", 3, none⟩ : JobStatus))] "x"
    ⟨2, 1, "processing", 0, some "f.csv"⟩ (by rfl)
  exact ⟨by rfl, h.1, h.2 "y" (by decide)⟩

/-- C1: evaluating the worker pipeline on a job with total_pages = 3
whose strategy succeeds on all 3 pages.  Contrary to the claim, the
final state is failed, with no output_filename and total_time still 0
(processed_pages does reach 3): at loop exit parse_confirmation_file
calls complete_job(job_id) without the required total_time argument,
the TypeError propagates, and the worker-loop except runs fail_job. -/
theorem all_pages_ok_job_fails :
    findJob (workerStep (fun _ => true) (createJob [] "job-c1" 3)
      { broker := Broker.robinhood, job_id := "job-c1" }
      [PageOutcome.ok [], PageOutcome.ok [], PageOutcome.ok []]).final
      "job-c1" =
      some { total_pages := 3, processed_pages := 3, status := "failed",
             total_time := 0, output_filename := none } ∧
    (workerStep (fun _ => true) (createJob [] "job-c1" 3)
      { broker := Broker.robinhood, job_id := "job-c1" }
      [PageOutcome.ok [], PageOutcome.ok [], PageOutcome.ok []]).artifact =
      none := by
  constructor <;> rfl

/-- C2, counterexample: the claim says a job whose strategy fails on
page 2 of 3 ends failed with processed_pages = 1, output_filename
null and no output artifact.  The final state is indeed failed with
processed_pages = 1, but parse_confirmation_file RETURNS the page-1
records after fail_job, and the worker then derives a filename,
records it, and hands the partial rows to to_csv: the artifact IS
written and output_filename IS set. -/
theorem page2_failure_writes_artifact :
    findJob (workerStep (fun _ => true) (createJob [] "job-c2" 3)
      { broker := Broker.robinhood, job_id := "job-c2" }
      [PageOutcome.ok [[("trade_date", Value.str "01/02/2025")]],
       PageOutcome.decodeFail, PageOutcome.ok []]).final "job-c2" =
      some { total_pages := 3, processed_pages := 1, status := "failed",
             total_time := 0, output_filename := some "rh_01_02_2025.csv" } ∧
    (workerStep (fun _ => true) (createJob [] "job-c2" 3)
      { broker := Broker.robinhood, job_id := "job-c2" }
      [PageOutcome.ok [[("trade_date", Value.str "01/02/2025")]],
       PageOutcome.decodeFail, PageOutcome.ok []]).artifact =
      some ("rh_01_02_2025.csv",
        [[("trade_date", Value.str "01/02/2025")]]) := by
  constructor <;> rfl

/-- C2, amended: a job whose strategy fails on page 2 of 3 inside the
per-page try (model call or decode) stops there and ends failed with
processed_pages = 1; however the worker still derives an output
filename from the accumulated page-1 records, records it on the job,
and writes those records as an output artifact. -/
theorem page2_failure_state (d : Broker → Bool) (s : Store) (b : Broker)
    (id : String) (recs1 : List Record) (p3 : PageOutcome)
    (hd : d b = true)
    (h : findJob s id = some ⟨3, 0, "queuing", 0, none⟩) :
    findJob (workerStep d s { broker := b, job_id := id }
      [PageOutcome.ok recs1, PageOutcome.decodeFail, p3]).final id =
      some ⟨3, 1, "failed", 0, some (deriveOutputFile b id recs1)⟩ ∧
    (workerStep d s { broker := b, job_id := id }
      [PageOutcome.ok recs1, PageOutcome.decodeFail, p3]).artifact =
      some (deriveOutputFile b id recs1, recs1) := by
  constructor <;>
    simp [workerStep, parseLoop, hd, startJob, incrementProgress, failJob,
      setOutputFilename, findJob_updateJob_self, h]

/-- C2, witness for the amended theorem on a concrete fidelity job. -/
theorem page2_failure_state_witness :
    findJob (createJob [] "w2" 3) "w2" =
      some (⟨3, 0, "queuing", 0, none⟩ : JobStatus) ∧
    findJob (workerStep (fun _ => true) (createJob [] "w2" 3)
      { broker := Broker.fidelity, job_id := "w2" }
      [PageOutcome.ok [[("date", Value.str "2025-03-04")]],
       PageOutcome.decodeFail, PageOutcome.ok []]).final "w2" =
      some ⟨3, 1, "failed", 0, some "fidelity_2025_03_04.csv"⟩ ∧
    (workerStep (fun _ => true) (createJob [] "w2" 3)
      { broker := Broker.fidelity, job_id := "w2" }
      [PageOutcome.ok [[("date", Value.str "2025-03-04")]],
       PageOutcome.decodeFail, PageOutcome.ok []]).artifact =
      some ("fidelity_2025_03_04.csv",
        [[("date", Value.str "2025-03-04")]]) := by
  have h := page2_failure_state (fun _ => true) (createJob [] "w2" 3)
    Broker.fidelity "w2" [[("date", Value.str "2025-03-04")]]
    (PageOutcome.ok []) (by rfl) (by rfl)
  refine ⟨by rfl, ?_, ?_⟩
  · rw [h.1]
    rfl
  · rw [h.2]
    rfl

/-- C5, counterexample: the claim says a job with an unresolvable
broker never takes status processing.  The worker calls start_job
(line 134) BEFORE the dispatch lookup (line 136), so right after the
first store operation the job status is processing; only then does it
become failed. -/
theorem unknown_broker_passes_processing :
    ((workerStep (fun _ => false) (createJob [] "job-c5" 4)
      { broker := Broker.unknown, job_id := "job-c5" } []).trace.head?).map
      (fun st => (findJob st "job-c5").map JobStatus.status) =
      some (some "processing") ∧
    findJob (workerStep (fun _ => false) (createJob [] "job-c5" 4)
      { broker := Broker.unknown, job_id := "job-c5" } []).final "job-c5" =
      some { total_pages := 4, processed_pages := 0, status := "failed",
             total_time := 0, output_filename := none } := by
  constructor <;> rfl

/-- C5, amended: for a dequeued item whose broker is not in the
dispatch table the job ends failed, no page is attempted
(processed_pages is unchanged, hence still 0 for a fresh job) and no
artifact is produced; but the worker resolves dispatch only AFTER the
processing transition, so the status passes through processing. -/
theorem unresolved_dispatch (d : Broker → Bool) (s : Store)
    (item : WorkItem) (pages : List PageOutcome) (j : JobStatus)
    (hd : d item.broker = false)
    (hj : findJob s item.job_id = some j) :
    (workerStep d s item pages).trace =
      [startJob s item.job_id,
       failJob (startJob s item.job_id) item.job_id] ∧
    findJob (startJob s item.job_id) item.job_id =
      some { j with status := "processing" } ∧
    findJob (workerStep d s item pages).final item.job_id =
      some { j with status := "failed" } ∧
    (workerStep d s item pages).artifact = none := by
  refine ⟨?_, ?_, ?_, ?_⟩ <;>
    simp [workerStep, hd, startJob, failJob, findJob_updateJob_self, hj]

/-- C5, witness for the amended theorem on a concrete fresh job. -/
theorem unresolved_dispatch_witness :
    (fun _ => false : Broker → Bool) Broker.unknown = false ∧
    findJob (createJob [] "w5" 4) "w5" =
      some (⟨4, 0, "queuing", 0, none⟩ : JobStatus) ∧
    findJob (workerStep (fun _ => false) (createJob [] "w5" 4)
      { broker := Broker.unknown, job_id := "w5" } []).final "w5" =
      some ⟨4, 0, "failed", 0, none⟩ ∧
    findJob (startJob (createJob [] "w5" 4) "w5") "w5" =
      some ⟨4, 0, "processing", 0, none⟩ := by
  have h := unresolved_dispatch (fun _ => false) (createJob [] "w5" 4)
    { broker := Broker.unknown, job_id := "w5" } [] ⟨4, 0, "queuing", 0, none⟩
    (by rfl) (by rfl)
  exact ⟨by rfl, by rfl, by rw [h.2.2.1], by rw [h.2.1]⟩

/-- C6, counterexample: the claim says the filename falls back to
job_id.csv when the date field is absent from the first record.  In
the code dict.get supplies the default "unknown", whose replace
succeeds, so a robinhood first record without trade_date yields
rh_unknown.csv, not job-c6.csv. -/
theorem filename_absent_field_not_job_id :
    deriveOutputFile Broker.robinhood "job-c6"
      [[("symbol", Value.str "AAPL")]] = "rh_unknown.csv" ∧
    deriveOutputFile Broker.robinhood "job-c6"
      [[("symbol", Value.str "AAPL")]] ≠ "job-c6" ++ ".csv" := by
  constructor
  · rfl
  · decide

/-- C6, amended: the output filename equals rh_ plus trade_date with
every / replaced by _ plus .csv for robinhood, and fidelity_ plus date
with every - replaced by _ plus .csv for fidelity; it equals
job_id.csv when no transactions were found; when the date field is
absent from the first record, the dict.get default "unknown" is used
instead, yielding rh_unknown.csv or fidelity_unknown.csv. -/
theorem output_filename_convention (jid d1 d2 : String)
    (r1 r2 r3 r4 : Record) (ts1 ts2 ts3 ts4 : List Record)
    (h1 : recordGet r1 "trade_date" (Value.str "unknown") = Value.str d1)
    (h2 : recordGet r2 "date" (Value.str "unknown") = Value.str d2)
    (h3 : recordGet r3 "trade_date" (Value.str "unknown") =
      Value.str "unknown")
    (h4 : recordGet r4 "date" (Value.str "unknown") = Value.str "unknown") :
    deriveOutputFile Broker.robinhood jid [] = jid ++ ".csv" ∧
    deriveOutputFile Broker.fidelity jid [] = jid ++ ".csv" ∧
    deriveOutputFile Broker.robinhood jid (r1 :: ts1) =
      "rh_" ++ replaceChar d1 '/' '_' ++ ".csv" ∧
    deriveOutputFile Broker.fidelity jid (r2 :: ts2) =
      "fidelity_" ++ replaceChar d2 '-' '_' ++ ".csv" ∧
    deriveOutputFile Broker.robinhood jid (r3 :: ts3) = "rh_unknown.csv" ∧
    deriveOutputFile Broker.fidelity jid (r4 :: ts4) =
      "fidelity_unknown.csv" := by
  refine ⟨rfl, rfl, ?_, ?_, ?_, ?_⟩ <;>
    simp [deriveOutputFile, h1, h2, h3, h4] <;> rfl

/-- C6, witness for the amended theorem on concrete records. -/
theorem output_filename_convention_witness :
    recordGet [("trade_date", Value.str "01/02/2025")] "trade_date"
      (Value.str "unknown") = Value.str "01/02/2025" ∧
    recordGet [("date", Value.str "2025-01-02")] "date"
      (Value.str "unknown") = Value.str "2025-01-02" ∧
    recordGet [] "trade_date" (Value.str "unknown") =
      Value.str "unknown" ∧
    deriveOutputFile Broker.robinhood "w6"
      [[("trade_date", Value.str "01/02/2025")]] = "rh_01_02_2025.csv" ∧
    deriveOutputFile Broker.fidelity "w6"
      [[("date", Value.str "2025-01-02")]] = "fidelity_2025_01_02.csv" ∧
    deriveOutputFile Broker.robinhood "w6" [] = "w6" ++ ".csv" ∧
    deriveOutputFile Broker.robinhood "w6" [[]] = "rh_unknown.csv" := by
  have h := output_filename_convention "w6" "01/02/2025" "2025-01-02"
    [("trade_date", Value.str "01/02/2025")] [("date", Value.str "2025-01-02")]
    [] [] [] [] [] [] (by rfl) (by rfl) (by rfl) (by rfl)
  refine ⟨by rfl, by rfl, by rfl, ?_, ?_, h.1, ?_⟩
  · rw [h.2.2.1]
    rfl
  · rw [h.2.2.2.1]
    rfl
  · rw [h.2.2.2.2.1]

/-- C10: when the parse returns a non-empty transaction list and the
first record holds a non-string value in the broker-specific date
field (trade_date for robinhood, worker_pool.py line 154; date for
fidelity, line 157), the replace call in the naming block raises
AttributeError and the except swallows it: the filename falls back to
job_id.csv, the worker records that filename on the job and still
hands the transactions to to_csv; the derivation error itself
triggers no fail path. -/
theorem derive_error_fallback (d : Broker → Bool) (s : Store)
    (id : String) (j : JobStatus) (b : Broker) (r : Record)
    (ts : List Record) (rest : List PageOutcome)
    (hd : d b = true)
    (hj : findJob s id = some j)
    (hr : (b = Broker.robinhood ∧
            recordGet r "trade_date" (Value.str "unknown") = Value.nonStr) ∨
          (b = Broker.fidelity ∧
            recordGet r "date" (Value.str "unknown") = Value.nonStr)) :
    (workerStep d s { broker := b, job_id := id }
      (PageOutcome.ok (r :: ts) :: PageOutcome.decodeFail :: rest)).artifact =
      some (id ++ ".csv", r :: ts) ∧
    findJob (workerStep d s { broker := b, job_id := id }
      (PageOutcome.ok (r :: ts) :: PageOutcome.decodeFail :: rest)).final id =
      some { j with
               status := "failed",
               processed_pages := j.processed_pages + 1,
               output_filename := some (id ++ ".csv") } := by
  rcases hr with ⟨hb, hr⟩ | ⟨hb, hr⟩ <;> subst hb <;> constructor <;>
    simp [workerStep, parseLoop, hd, deriveOutputFile, hr, startJob,
      incrementProgress, failJob, setOutputFilename,
      findJob_updateJob_self, hj]

/-- C10, witness: one concrete robinhood job and one concrete fidelity
job, each with a non-string value in its broker-specific date field. -/
theorem derive_error_fallback_witness :
    findJob (createJob [] "w10" 2) "w10" =
      some (⟨2, 0, "queuing", 0, none⟩ : JobStatus) ∧
    recordGet [("trade_date", Value.nonStr)] "trade_date"
      (Value.str "unknown") = Value.nonStr ∧
    recordGet [("date", Value.nonStr)] "date"
      (Value.str "unknown") = Value.nonStr ∧
    (workerStep (fun _ => true) (createJob [] "w10" 2)
      { broker := Broker.robinhood, job_id := "w10" }
      [PageOutcome.ok [[("trade_date", Value.nonStr)]],
       PageOutcome.decodeFail]).artifact =
      some ("w10" ++ ".csv", [[("trade_date", Value.nonStr)]]) ∧
    findJob (workerStep (fun _ => true) (createJob [] "w10" 2)
      { broker := Broker.robinhood, job_id := "w10" }
      [PageOutcome.ok [[("trade_date", Value.nonStr)]],
       PageOutcome.decodeFail]).final "w10" =
      some ⟨2, 1, "failed", 0, some "w10.csv"⟩ ∧
    (workerStep (fun _ => true) (createJob [] "w10" 2)
      { broker := Broker.fidelity, job_id := "w10" }
      [PageOutcome.ok [[("date", Value.nonStr)]],
       PageOutcome.decodeFail]).artifact =
      some ("w10" ++ ".csv", [[("date", Value.nonStr)]]) ∧
    findJob (workerStep (fun _ => true) (createJob [] "w10" 2)
      { broker := Broker.fidelity, job_id := "w10" }
      [PageOutcome.ok [[("date", Value.nonStr)]],
       PageOutcome.decodeFail]).final "w10" =
      some ⟨2, 1, "failed", 0, some "w10.csv"⟩ := by
  have hrh := derive_error_fallback (fun _ => true) (createJob [] "w10" 2)
    "w10" ⟨2, 0, "queuing", 0, none⟩ Broker.robinhood
    [("trade_date", Value.nonStr)] [] [] (by rfl) (by rfl)
    (Or.inl ⟨rfl, by rfl⟩)
  have hfd := derive_error_fallback (fun _ => true) (createJob [] "w10" 2)
    "w10" ⟨2, 0, "queuing", 0, none⟩ Broker.fidelity
    [("date", Value.nonStr)] [] [] (by rfl) (by rfl)
    (Or.inr ⟨rfl, by rfl⟩)
  refine ⟨by rfl, by rfl, by rfl, hrh.1, ?_, hfd.1, ?_⟩
  · rw [hrh.2]
    rfl
  · rw [hfd.2]
    rfl

end ConfParse
